import Mathlib

/-!
Verification of the price-tracker repository (`tracker.py`).

This file gives a shallow embedding of the tracker's data model and
operations, translated from the Python source, and proves or refutes the
frozen behavioural claims about it.

Modelling conventions:
* Python floats that hold prices are modelled as exact rationals (`ℚ`):
  every property at issue (which strings parse, positivity guards,
  comparisons) is independent of binary rounding.
* Timestamps are modelled as `Int` seconds.  The source formats
  `datetime.now()` with `"%Y-%m-%d %H:%M:%S"` on writing and parses the
  same format back on reading; that round trip is the identity on
  second-granularity times and preserves order, so an integer timestamp
  is a faithful image of the stored string.
* Calendar dates (`"%Y-%m-%d"` strings) stay strings; the source compares
  them with Python string comparison, modelled by code-point
  lexicographic comparison on the character list.
* Strings are manipulated through their character lists so that all
  definitions compute by kernel reduction.
-/

/-! ### Decimal digit strings

`digitsToNat` evaluates a list of ASCII digit characters;
`natDigitsCore` renders a natural number in decimal (most significant
digit first), as Python's `str`/number formatting does.  The extra fuel
argument makes the recursion structural; `natToString n` supplies enough
fuel for any `n`. -/

def digitChar (n : Nat) : Char := Char.ofNat (48 + n)

def digitsToNat (cs : List Char) : Nat :=
  cs.foldl (fun a c => 10 * a + (c.toNat - 48)) 0

def natDigitsCore (fuel n : Nat) : List Char :=
  match fuel with
  | 0 => []
  | fuel + 1 => if n < 10 then [digitChar n] else natDigitsCore fuel (n / 10) ++ [digitChar (n % 10)]

def natToString (n : Nat) : String := String.mk (natDigitsCore (n + 1) n)

/-! ### Substring and lexicographic helpers (Python `in`, `lower`, `>=`) -/

/-- Python's `needle in hay` substring test, on character lists. -/
def listInfix (needle : List Char) : List Char → Bool
  | [] => needle.isEmpty
  | c :: rest => needle.isPrefixOf (c :: rest) || listInfix needle rest

/-- Python's `needle in hay` on strings. -/
def strContains (hay needle : String) : Bool := listInfix needle.data hay.data

/-- Python's `str.lower` (ASCII case folding, all that occurs here). -/
def strLower (s : String) : String := String.mk (s.data.map Char.toLower)

/-- Python's `str.strip()`: drop whitespace from both ends. -/
def strStrip (s : String) : String :=
  String.mk (((s.data.dropWhile Char.isWhitespace).reverse.dropWhile Char.isWhitespace).reverse)

/-- Code-point lexicographic `≤` on character lists: Python's string
comparison, used by the source on `"%Y-%m-%d"` date strings. -/
def leChars : List Char → List Char → Bool
  | [], _ => true
  | _ :: _, [] => false
  | a :: as, b :: bs =>
    if a.toNat < b.toNat then true
    else if b.toNat < a.toNat then false
    else leChars as bs

/-- Python string `a <= b`. -/
def strLe (a b : String) : Bool := leChars a.data b.data

/-! ### `clean_price` (tracker.py lines 54-61)

```python
def clean_price(raw: str):
    if not raw:
        return None
    cleaned = re.sub(r"[^\d.]", "", raw.replace(",", ""))
    try:
        return float(cleaned)
    except ValueError:
        return None
```

The regex keeps exactly the digits and decimal points (the preceding
`replace(",", "")` is subsumed by it).  After that filtering the string
consists of digits and dots only, on which Python's `float` succeeds
exactly when there is at least one digit and at most one dot;
`decValue` is the number such a string denotes. -/

/-- Characters surviving `re.sub(r"[^\d.]", "", ·)`. -/
def keepNumChar (c : Char) : Bool := c.isDigit || c == '.'

def filterNumChars (raw : String) : List Char := raw.data.filter keepNumChar

/-- Value of a digits-and-one-optional-dot string: integer part plus
fractional part scaled by its length. -/
def decValue (cs : List Char) : ℚ :=
  (digitsToNat (cs.takeWhile (fun c => c ≠ '.')) : ℚ) +
    (digitsToNat ((cs.dropWhile (fun c => c ≠ '.')).drop 1) : ℚ) /
      10 ^ ((cs.dropWhile (fun c => c ≠ '.')).drop 1).length

/-- Python `float(·)` restricted to the strings reaching it here (digit
and dot characters, plus arbitrary junk which makes it fail): succeeds
iff the characters are digits and dots with at least one digit and at
most one dot. -/
def parseDecimal (cs : List Char) : Option ℚ :=
  if (∀ c ∈ cs, keepNumChar c = true) ∧ cs.count ('.') ≤ 1 ∧ (∃ c ∈ cs, c.isDigit = true) then
    some (decValue cs)
  else none

/-- tracker.py `clean_price`. -/
def clean_price (raw : String) : Option ℚ :=
  if raw = "" then none else parseDecimal (filterNumChars raw)

/-! ### Price formatting (the `f"{price:.2f}"` in `log_price`)

`formatCents k` renders `k` cents as `"<int>.<dd>"`, the decimal image
of `f"{p:.2f}"`; `fmt2 p` first rounds `100 * p` to whole cents. -/

def formatCents (k : Nat) : String :=
  String.mk (natDigitsCore (k / 100 + 1) (k / 100) ++
    ('.') :: [digitChar (k % 100 / 10), digitChar (k % 100 % 10)])

/-- `f"{p:.2f}"` for the nonnegative prices the tracker handles. -/
def fmt2 (p : ℚ) : String := formatCents (round ((100 : ℚ) * p)).toNat

/-! ### Structured offer data (JSON-LD)

`scrape_product` (lines 208-246) and `is_out_of_stock` (lines 104-141)
both collect offers with the same code: the item's `offers` field (a
dict, or a list from which non-dict entries are dropped) plus, for the
ProductGroup pattern, each `hasVariant` entry's `offers` handled the same
way.  A field read with `o.get(k, "")` defaults to `""`; absent optional
JSON values and `""` are both falsy in Python, so string fields model
both as `""`.  A script whose JSON fails to parse contributes nothing
(the `except` path) and is modelled as `none`. -/

structure Offer where
  url : String := ""
  price : String := ""
  lowPrice : String := ""
  availability : String := ""
deriving DecidableEq

inductive OfferEntry where
  | nondict
  | dict (o : Offer)
deriving DecidableEq

inductive OffersField where
  | absent
  | one (o : Offer)
  | many (l : List OfferEntry)
deriving DecidableEq

inductive HasVariantEntry where
  | nondict
  | variant (offers : OffersField)
deriving DecidableEq

structure Item where
  offers : OffersField := OffersField.absent
  hasVariant : List HasVariantEntry := []
deriving DecidableEq

/-- `offers`-field normalisation: a dict gives one offer, a list keeps
its dict entries in order, anything else gives nothing. -/
def offersFromField : OffersField → List Offer
  | OffersField.absent => []
  | OffersField.one o => [o]
  | OffersField.many l => l.filterMap (fun e => match e with
      | OfferEntry.nondict => none
      | OfferEntry.dict o => some o)

/-- `all_offers` as collected in both functions: direct offers, then the
offers of each dict `hasVariant` entry. -/
def collectOffers (it : Item) : List Offer :=
  offersFromField it.offers ++
    (it.hasVariant.map (fun v => match v with
      | HasVariantEntry.nondict => []
      | HasVariantEntry.variant f => offersFromField f)).flatten

/-! ### Variant id extraction:
`re.search(r'[?&](?:variant|sku_id|sku)=([\w\-]+)', url)` (lines 98-102
and 203-206).  The regex is compiled literally: scan for a `?` or `&`,
try the three key alternatives in order, and capture a maximal nonempty
run of word characters (`\w` is modelled as ASCII alphanumerics plus
underscore, all that URLs here contain) and hyphens; on failure the scan
resumes at the next position. -/

def wordChar (c : Char) : Bool := c.isAlphanum || c == '_' || c == '-'

def captureAfter (cs key : List Char) : Option (List Char) :=
  if key.isPrefixOf cs then
    if ((cs.drop key.length).takeWhile wordChar).isEmpty then none
    else some ((cs.drop key.length).takeWhile wordChar)
  else none

def tryKeysAt (cs : List Char) : Option (List Char) :=
  match captureAfter cs (("variant=").data) with
  | some cap => some cap
  | none =>
    match captureAfter cs (("sku_id=").data) with
    | some cap => some cap
    | none => captureAfter cs (("sku=").data)

def scanVariant : List Char → Option (List Char)
  | [] => none
  | c :: rest =>
    if c == '?' || c == '&' then
      match tryKeysAt rest with
      | some cap => some cap
      | none => scanVariant rest
    else scanVariant rest

def extractVariantId (url : String) : Option String :=
  (scanVariant url.data).map (fun cs => String.mk cs)

/-! ### Variant filtering and structured price pick (lines 233-246) -/

def offerMatchesVariant (vid : String) (o : Offer) : Bool := strContains o.url vid

/-- `matched_offers if matched_offers else all_offers` (lines 234-239). -/
def candidate_offers (vid : Option String) (offers : List Offer) : List Offer :=
  match vid with
  | none => offers
  | some v => if (offers.filter (offerMatchesVariant v)).isEmpty then offers
              else offers.filter (offerMatchesVariant v)

/-- `price_raw = offer.get("price") or offer.get("lowPrice")`; `None`
and `""` are both falsy. -/
def offerPriceRaw (o : Offer) : Option String :=
  if o.price ≠ "" then some o.price
  else if o.lowPrice ≠ "" then some o.lowPrice
  else none

/-- The `for offer in candidate_offers` loop (lines 240-246): first offer
with a truthy raw price that cleans to a number `> 0`. -/
def pickOfferPrice : List Offer → Option ℚ
  | [] => none
  | o :: rest =>
    match offerPriceRaw o with
    | none => pickOfferPrice rest
    | some raw =>
      match clean_price raw with
      | none => pickOfferPrice rest
      | some p => if 0 < p then some p else pickOfferPrice rest

def itemStructuredPrice (vid : Option String) (it : Item) : Option ℚ :=
  pickOfferPrice (candidate_offers vid (collectOffers it))

def firstSome {α β : Type} (f : α → Option β) : List α → Option β
  | [] => none
  | a :: rest => match f a with | some b => some b | none => firstSome f rest

/-- Items of all parseable scripts, in document order. -/
def scriptsItems : List (Option (List Item)) → List Item
  | [] => []
  | s :: rest => s.getD [] ++ scriptsItems rest

/-- Step 1 of price extraction: first item whose candidate offers yield a
usable price. -/
def structuredPrice (scripts : List (Option (List Item))) (vid : Option String) : Option ℚ :=
  firstSome (itemStructuredPrice vid) (scriptsItems scripts)

/-! ### HTML element tree, for the markup price fallbacks -/

mutual
inductive Node where
  | text (s : String)
  | elem (tag : String) (classes : List String) (children : NodeList)
inductive NodeList where
  | nil
  | cons (n : Node) (l : NodeList)
end

/-- What the markup cascade reads off an element: its tag, its own
`class` list, and its `get_text()` (concatenated descendant text). -/
structure ElemInfo where
  tag : String
  classes : List String
  text : String
deriving DecidableEq

mutual
def nodeText : Node → String
  | Node.text s => s
  | Node.elem _ _ children => nodesText children
def nodesText : NodeList → String
  | NodeList.nil => ""
  | NodeList.cons n ns => nodeText n ++ nodesText ns
end

/-! `elemsWithAnc` lists all elements in document (preorder) order, each
with its ancestor chain, nearest ancestor first — the order of
`el.parents`. -/

mutual
def elemsWithAnc (anc : List ElemInfo) : Node → List (ElemInfo × List ElemInfo)
  | Node.text _ => []
  | Node.elem tag classes children =>
    (⟨tag, classes, nodesText children⟩, anc) ::
      elemsListWithAnc (⟨tag, classes, nodesText children⟩ :: anc) children
def elemsListWithAnc (anc : List ElemInfo) : NodeList → List (ElemInfo × List ElemInfo)
  | NodeList.nil => []
  | NodeList.cons n ns => elemsWithAnc anc n ++ elemsListWithAnc anc ns
end

def nodePairs (root : Node) : List (ElemInfo × List ElemInfo) := elemsWithAnc [] root

/-! ### COMPARE_AT_PATTERN and the selector regexes (lines 259-269)

Each regex is an alternation of literals once the optional `[_\-]?`
classes are expanded; `re.I` search is modelled by lower-casing the
subject and testing substring containment of each literal.  BeautifulSoup
matches a class regex against each class string of the element
individually; the explicit ancestor check in the source joins the class
list with spaces first (`" ".join(...)`), and both are modelled as
written. -/

def compareAtPats : List String :=
  ["compareat", "compare_at", "compare-at", "wasprice", "was_price", "was-price",
   "originalprice", "original_price", "original-price", "pricewas", "price_was",
   "price-was", "price--compare", "price__compare", "crossed", "strikethrough",
   "line-through"]

def matchesCompareAt (s : String) : Bool :=
  compareAtPats.any (fun p => strContains (strLower s) p)

def joinClasses : List String → String
  | [] => ""
  | [c] => c
  | c :: rest => c ++ " " ++ joinClasses rest

structure Selector where
  tag : String
  pats : List String

def anyClassMatches (pats : List String) (classes : List String) : Bool :=
  classes.any (fun c => pats.any (fun p => strContains (strLower c) p))

def priceSelectors : List Selector :=
  [⟨"span", ["price__sale", "saleprice", "sale_price", "sale-price",
             "currentprice", "current_price", "current-price", "price--sale"]⟩,
   ⟨"div", ["price__current", "product__price", "productprice"]⟩,
   ⟨"span", ["product-price", "current-price"]⟩]

def elemMatchesSel (sel : Selector) (e : ElemInfo) : Bool :=
  (e.tag == sel.tag) && anyClassMatches sel.pats e.classes

/-- A markup candidate actually selected: the element, its ancestors and
the price parsed from its text. -/
structure Chosen where
  el : ElemInfo
  anc : List ElemInfo
  price : ℚ
deriving DecidableEq

/-- Step 2 (lines 264-285): for each selector in priority order, look up
the first matching element.  When a selector matches, line 275 evaluates
`[el] + el.parents`; BeautifulSoup's `.parents` is a generator property,
and Python's `list + generator` raises `TypeError`, with no handler
inside `scrape_product` — the product's iteration aborts (only `run`'s
per-retailer handler catches it), so the compare-at skip and the
selection beneath it are dead code.  The cascade therefore raises
(`error`) at the first selector with a match, and selects nothing
otherwise. -/
def selCascade (pairs : List (ElemInfo × List ElemInfo)) : List Selector → Except Unit Unit
  | [] => Except.ok ()
  | sel :: rest =>
    match pairs.find? (fun pr => elemMatchesSel sel pr.1) with
    | some _ => Except.error ()
    | none => selCascade pairs rest

def isSdel (tag : String) : Bool := tag == "s" || tag == "del"

/-- Step 3, the broad fallback (lines 288-299): every `span` whose
classes loosely match "price", skipping one whose own joined classes
match COMPARE_AT_PATTERN or which is, or sits inside, an `s`/`del`
element, until one cleans to a price `> 0`. -/
def broadScan : List (ElemInfo × List ElemInfo) → Option Chosen
  | [] => none
  | pr :: rest =>
    if (pr.1.tag == "span") && anyClassMatches ["price"] pr.1.classes then
      if matchesCompareAt (joinClasses pr.1.classes) then broadScan rest
      else if pr.2.any (fun a => isSdel a.tag) || isSdel pr.1.tag then broadScan rest
      else
        match clean_price pr.1.text with
        | none => broadScan rest
        | some p => if 0 < p then some ⟨pr.1, pr.2, p⟩ else broadScan rest
    else broadScan rest

def broadPrice (root : Node) : Option Chosen := broadScan (nodePairs root)

/-! ### The fetched document and price extraction -/

structure Button where
  disabled : Bool := false
  text : String := ""
deriving DecidableEq

/-- A parsed page, decomposed into the pieces the extractor reads: the
element tree, the JSON-LD scripts in document order (`none` = JSON parse
failure), the content of the availability meta tag if one exists, and
the page's buttons in document order. -/
structure Doc where
  tree : Node
  scripts : List (Option (List Item)) := []
  metaAvailability : Option String := none
  buttons : List Button := []

/-- Price extraction of `scrape_product` (lines 200-299): structured
offers first; if they miss, the prioritized selector cascade runs and
raises (`error`) as soon as any priority selector matches an element
(line 275's TypeError); only when no priority selector matches does the
broad fallback produce the result. -/
def scrape_product_price (doc : Doc) (url : String) : Except Unit (Option ℚ) :=
  match structuredPrice doc.scripts (extractVariantId url) with
  | some p => Except.ok (some p)
  | none =>
    match selCascade (nodePairs doc.tree) priceSelectors with
    | Except.error _ => Except.error ()
    | Except.ok _ => Except.ok ((broadPrice doc.tree).map Chosen.price)

/-! ### `is_out_of_stock` (lines 84-165)

Signal order: (1) JSON-LD offer availability, variant-filtered like the
price; within each item's candidate offers, an availability containing
an out-of-stock term decides "out of stock", else one containing
`"InStock"` decides "in stock" (both case-sensitive `in` tests); the
first decisive offer wins and every later signal is ignored.  (2) The
availability meta tag: a recognised out-of-stock value decides true, a
recognised in-stock value decides false, anything else falls through.
(3) A disabled button (first 100) whose cleaned text is exactly a
purchase phrase decides true.  Otherwise false ("in stock"). -/

def oosSignals : List String := ["OutOfStock", "SoldOut", "Discontinued", "BackOrder"]

def offersDecision : List Offer → Option Bool
  | [] => none
  | o :: rest =>
    if oosSignals.any (fun x => strContains o.availability x) then some true
    else if strContains o.availability ("InStock") then some false
    else offersDecision rest

def itemStockDecision (vid : Option String) (it : Item) : Option Bool :=
  offersDecision (candidate_offers vid (collectOffers it))

def structuredStock (scripts : List (Option (List Item))) (vid : Option String) : Option Bool :=
  firstSome (itemStockDecision vid) (scriptsItems scripts)

def oosMetaVals : List String := ["out of stock", "oos", "sold out", "backorder", "preorder"]

def inStockMetaVals : List String := ["in stock", "instock", "available"]

def metaStage : Option String → Option Bool
  | none => none
  | some content =>
    if oosMetaVals.contains (strLower (strStrip content)) then some true
    else if inStockMetaVals.contains (strLower (strStrip content)) then some false
    else none

def addToCartTexts : List String := ["add to cart", "add to bag", "buy now", "purchase", "checkout"]

/-- One pass of `re.sub(r'[\-–—].*$', '', ·)`: without DOTALL, `.` stops
at a newline and `$` holds only at the end of the string or just before
a final newline, so a dash segment is removed only when it reaches the
end of the string (a final newline may remain); a dash followed by an
interior newline does not match and the scan moves on. -/
def subDashEnd : List Char → List Char
  | [] => []
  | c :: rest =>
    if c = '-' ∨ c = '–' ∨ c = '—' then
      if rest.dropWhile (fun x => x ≠ '\n') = [] then []
      else if rest.dropWhile (fun x => x ≠ '\n') = ['\n'] then ['\n']
      else c :: subDashEnd rest
    else c :: subDashEnd rest

/-- `re.sub(r'[\-–—].*$', '', btn_text).strip()` after lower-casing. -/
def buttonActionText (t : String) : String :=
  strStrip (String.mk (subDashEnd (strLower t).data))

def buttonStage (buttons : List Button) : Bool :=
  (buttons.take 100).any (fun b => b.disabled && addToCartTexts.contains (buttonActionText b.text))

def is_out_of_stock (doc : Doc) (url : String) : Bool :=
  match structuredStock doc.scripts (extractVariantId url) with
  | some b => b
  | none =>
    match metaStage doc.metaAvailability with
    | some b => b
    | none => buttonStage doc.buttons

/-! ### Alert bookkeeping (lines 27-46)

The alerted store maps a product key to the `"%Y-%m-%d"` date it last
alerted; modelled as an association list with the first binding for a
key authoritative (`List.lookup`).  `mark_alerted` replaces the key's
binding, as Python dict assignment does. -/

def already_alerted_today (alerted : List (String × String)) (name today : String) : Bool :=
  List.lookup name alerted == some today

def mark_alerted (alerted : List (String × String)) (name today : String) :
    List (String × String) :=
  (name, today) :: alerted.filter (fun e => e.1 ≠ name)

/-- `save_alerted` (lines 34-39): prune entries whose date is below the
two-day cutoff (`v >= cutoff`, Python string comparison) and persist the
rest.  The returned list is the written file's content. -/
def save_alerted (alerted : List (String × String)) (cutoff : String) :
    List (String × String) :=
  alerted.filter (fun e => strLe cutoff e.2)

/-- The drop branch of `run` (lines 505-509): alert and mark unless the
product already alerted today.  Returns whether an alert was emitted and
the updated map. -/
def dropDecision (alerted : List (String × String)) (name today : String) :
    Bool × List (String × String) :=
  if already_alerted_today alerted name today then (false, alerted)
  else (true, mark_alerted alerted name today)

/-- `n` further same-day invocations of the drop branch, threading the
alerted map. -/
def sameDayRuns (name today : String) : Nat → List (String × String) → List (String × String)
  | 0, m => m
  | n + 1, m => sameDayRuns name today n (dropDecision m name today).2

/-- The tail of `run` (lines 518-526): `send_alert` delegates to
`send_email`, whose `try/except` (lines 370-376) converts any SMTP
failure into a log line, so the run continues and `save_alerted` always
executes on the in-memory map.  `emailFails` is whether the send raised;
the pair is (written alerted file, whether an email error was logged). -/
def runFinish (alerted : List (String × String)) (cutoff : String) (emailFails : Bool) :
    List (String × String) × Bool :=
  (save_alerted alerted cutoff, emailFails)

/-! ### CSV history store (lines 314-360)

One row per logged reading; `price` is kept as the written string (the
file stores text), parsed back with `float` on reading. -/

structure Row where
  timestamp : Int
  name : String
  price : String
  url : String := ""
  image : String := ""
  oos : String := ""
deriving DecidableEq

def productKey (label retailer : String) : String := label ++ " - " ++ retailer

/-- `log_price` (lines 350-360): append one row, price rendered with
`f"{price:.2f}"`, image defaulted to `""`, oos as `"1"`/`""`. -/
def log_price (log : List Row) (label retailer url : String) (price : ℚ)
    (image : Option String) (oos : Bool) (now : Int) : List Row :=
  log ++ [{ timestamp := now, name := productKey label retailer, price := fmt2 price,
            url := url, image := image.getD "", oos := if oos then "1" else "" }]

/-- `read_last_price` (lines 334-339): `None` when no row matches, else
`float` of the last matching row's price string — which raises (the
`error` case) when that string does not parse. -/
def read_last_price (log : List Row) (label retailer : String) : Except Unit (Option ℚ) :=
  match (log.filter (fun r => r.name = productKey label retailer)).getLast? with
  | none => Except.ok none
  | some r =>
    match parseDecimal r.price.data with
    | some v => Except.ok (some v)
    | none => Except.error ()

/-- `read_price_7days_ago` (lines 341-348): last matching row whose
timestamp is at or before `now` minus 7 days (`<=`, inclusive). -/
def read_price_7days_ago (log : List Row) (label retailer : String) (now : Int) :
    Except Unit (Option ℚ) :=
  match ((log.filter (fun r => r.name = productKey label retailer)).filter
      (fun r => r.timestamp ≤ now - 7 * 86400)).getLast? with
  | none => Except.ok none
  | some r =>
    match parseDecimal r.price.data with
    | some v => Except.ok (some v)
    | none => Except.error ()

/-- A pre-migration CSV row (`ensure_csv_header`, lines 317-332): the
columns of an older, narrower schema; the rewrite fills each of the
`FIELDS` columns from the old row, defaulting a missing column to `""`
(`row.get(k, "")`). -/
structure OldRow where
  timestamp : Int
  name : String
  price : Option String := none
  url : Option String := none
  image : Option String := none
  oos : Option String := none

def migrateRow (r : OldRow) : Row :=
  { timestamp := r.timestamp, name := r.name, price := r.price.getD "",
    url := r.url.getD "", image := r.image.getD "", oos := r.oos.getD "" }

/-! ### One iteration of the run loop (lines 481-516)

State visible to a product's iteration: the history log, the alerted
map, and the run's accumulated alert payloads.  Order as in the source:
skip if no price; read the previous price (an unparseable stored price
raises there, caught by the per-retailer handler before anything is
logged); append the new row; skip alerting when out of stock; then
baseline / drop / steady, with the drop branch as `dropDecision`. -/

structure ScrapeResult where
  price : Option ℚ := none
  image : Option String := none
  oos : Bool := false

structure Alert where
  name : String
  url : String
  old_price : ℚ
  new_price : ℚ
  drop : ℚ
  pct : ℚ
deriving DecidableEq

structure RunState where
  log : List Row
  alerted : List (String × String)
  alerts : List Alert
deriving DecidableEq

def runStep (s : RunState) (now : Int) (today : String) (label retailer url : String)
    (res : ScrapeResult) : RunState :=
  match res.price with
  | none => s
  | some newPrice =>
    match read_last_price s.log label retailer with
    | Except.error _ => s
    | Except.ok oldPrice =>
      let log1 := log_price s.log label retailer url newPrice res.image res.oos now
      if res.oos then { s with log := log1 }
      else
        match oldPrice with
        | none => { s with log := log1 }
        | some old =>
          if newPrice < old then
            let d := dropDecision s.alerted (productKey label retailer) today
            if d.1 then
              { log := log1, alerted := d.2,
                alerts := s.alerts ++
                  [{ name := productKey label retailer, url := url, old_price := old,
                     new_price := newPrice, drop := old - newPrice,
                     pct := (old - newPrice) / old * 100 }] }
            else { s with log := log1, alerted := d.2 }
          else { s with log := log1 }

/-! ### The staleness check (lines 528-548)

For each tracked product name: no rows at all → listed with "(no data
yet)"; otherwise the last row's timestamp strictly before `now` minus 24
hours → listed with the hours-ago annotation.  The source builds the
decorated strings `f"{name} ({...})"`; the list is modelled as (name,
annotation) pairs.  One aggregated notice is sent iff the list is
nonempty. -/

def staleEntry (log : List Row) (now : Int) (name : String) : Option String :=
  match (log.filter (fun r => r.name = name)).getLast? with
  | none => some ("(no data yet)")
  | some r =>
    if r.timestamp < now - 24 * 3600 then
      some ("(last seen " ++ natToString ((now - r.timestamp).toNat / 3600) ++ "h ago)")
    else none

def staleList (log : List Row) (tracked : List String) (now : Int) : List (String × String) :=
  tracked.filterMap (fun n => (staleEntry log now n).map (fun a => (n, a)))

def stalenessNotice (log : List Row) (tracked : List String) (now : Int) :
    Option (List (String × String)) :=
  if (staleList log tracked now).isEmpty then none else some (staleList log tracked now)

/-! ### Concrete fixtures used by counterexamples and witnesses -/

/-- A page whose only price-bearing element is a plain `span.price`
nested inside a `div.compare-at` container. -/
def cexTree : Node :=
  Node.elem ("div") ["compare-at"]
    (NodeList.cons
      (Node.elem ("span") ["price"] (NodeList.cons (Node.text ("10.00")) NodeList.nil))
      NodeList.nil)

def cexSpan : ElemInfo := { tag := "span", classes := ["price"], text := "10.00" }

def cexDiv : ElemInfo := { tag := "div", classes := ["compare-at"], text := "10.00" }

def cexDoc : Doc := { tree := cexTree }

/-- A page with a `span.sale-price`: the first priority selector matches
it, so the cascade hits line 275's TypeError. -/
def selTree : Node :=
  Node.elem ("div") []
    (NodeList.cons
      (Node.elem ("span") ["sale-price"] (NodeList.cons (Node.text ("5.00")) NodeList.nil))
      NodeList.nil)

/-- A page with a plain `span.price` for the broad fallback. -/
def broadTree : Node :=
  Node.elem ("div") []
    (NodeList.cons
      (Node.elem ("span") ["price"] (NodeList.cons (Node.text ("7.00")) NodeList.nil))
      NodeList.nil)

def broadSpan : ElemInfo := { tag := "span", classes := ["price"], text := "7.00" }

def broadDiv : ElemInfo := { tag := "div", classes := [], text := "7.00" }

/-- Offers for the variant-filtering claim: the matching offer second. -/
def wOfferA : Offer := { url := "https://s.com/p?variant=11", price := "20.00" }

def wOfferB : Offer := { url := "https://s.com/p?variant=77", price := "15.00" }

/-- Structured data whose first candidate offer is out of stock and whose
second is in stock. -/
def cexItem3 : Item :=
  { offers := OffersField.many
      [OfferEntry.dict { availability := "https://schema.org/OutOfStock" },
       OfferEntry.dict { availability := "https://schema.org/InStock" }] }

def cexDoc3 : Doc := { tree := Node.text (""), scripts := [some [cexItem3]] }

/-- Structured data with a single in-stock offer. -/
def inItem3 : Item :=
  { offers := OffersField.one { availability := "https://schema.org/InStock" } }

/-! ## Lemmas and claim theorems -/

/-! ### Basic lemmas about digit rendering and parsing -/

theorem toNat_digitChar {k : Nat} (h : k < 10) : (digitChar k).toNat = 48 + k := by
  interval_cases k <;> decide

theorem isDigit_digitChar {k : Nat} (h : k < 10) : (digitChar k).isDigit = true := by
  interval_cases k <;> decide

theorem digitsToNat_append (xs ys : List Char) :
    digitsToNat (xs ++ ys) =
      digitsToNat ys + digitsToNat xs * 10 ^ ys.length := by
  induction ys using List.reverseRecOn with
  | nil => simp [digitsToNat]
  | append_singleton ys c ih =>
    have h1 : digitsToNat ((xs ++ ys) ++ [c]) = 10 * digitsToNat (xs ++ ys) + (c.toNat - 48) := by
      simp [digitsToNat, List.foldl_append]
    have h2 : digitsToNat (ys ++ [c]) = 10 * digitsToNat ys + (c.toNat - 48) := by
      simp [digitsToNat, List.foldl_append]
    have h3 : xs ++ (ys ++ [c]) = (xs ++ ys) ++ [c] := by simp
    rw [h3, h1, ih, h2]
    simp [List.length_append]
    ring

theorem digitsToNat_natDigitsCore (fuel n : Nat) (h : n < fuel) :
    digitsToNat (natDigitsCore fuel n) = n := by
  induction fuel generalizing n with
  | zero => omega
  | succ fuel ih =>
    rw [natDigitsCore]
    split
    · rename_i hn
      simp [digitsToNat, toNat_digitChar hn]
    · rename_i hn
      have hdiv : n / 10 < fuel := by
        have := Nat.div_lt_self (by omega : 0 < n) (by omega : 1 < 10)
        omega
      rw [digitsToNat_append, ih (n / 10) hdiv]
      have hm : (digitChar (n % 10)).toNat = 48 + n % 10 :=
        toNat_digitChar (Nat.mod_lt _ (by omega))
      simp [digitsToNat, hm]
      omega

theorem isDigit_of_mem_natDigitsCore (fuel n : Nat) :
    ∀ c ∈ natDigitsCore fuel n, c.isDigit = true := by
  induction fuel generalizing n with
  | zero => simp [natDigitsCore]
  | succ fuel ih =>
    rw [natDigitsCore]
    split
    · rename_i hn
      intro c hc
      simp at hc
      subst hc
      exact isDigit_digitChar hn
    · intro c hc
      simp at hc
      rcases hc with hc | hc
      · exact ih _ c hc
      · subst hc
        exact isDigit_digitChar (Nat.mod_lt _ (by omega))

theorem natDigitsCore_ne_nil (fuel n : Nat) (h : n < fuel) :
    natDigitsCore fuel n ≠ [] := by
  cases fuel with
  | zero => omega
  | succ fuel =>
    rw [natDigitsCore]
    split <;> simp

theorem isDigit_ne_dot {c : Char} (h : c.isDigit = true) : c ≠ '.' := by
  intro he
  subst he
  simp [Char.isDigit] at h

theorem takeWhile_no_dot {l r : List Char} (h : ∀ c ∈ l, c ≠ '.') :
    (l ++ ('.') :: r).takeWhile (fun c => c ≠ '.') = l := by
  induction l with
  | nil => simp [List.takeWhile]
  | cons a as ih =>
    have ha : a ≠ '.' := h a (by simp)
    have ih2 := ih (fun c hc => h c (by simp [hc]))
    simp only [List.cons_append, List.takeWhile_cons]
    simp [ha]
    simpa using ih2

theorem dropWhile_no_dot {l r : List Char} (h : ∀ c ∈ l, c ≠ '.') :
    (l ++ ('.') :: r).dropWhile (fun c => c ≠ '.') = ('.') :: r := by
  induction l with
  | nil => simp [List.dropWhile]
  | cons a as ih =>
    have ha : a ≠ '.' := h a (by simp)
    have ih2 := ih (fun c hc => h c (by simp [hc]))
    simp only [List.cons_append, List.dropWhile_cons]
    simp [ha]
    simpa using ih2

theorem cents_value (k : Nat) :
    ((k / 100 : Nat) : ℚ) + ((k % 100 : Nat) : ℚ) / 10 ^ 2 = (k : ℚ) / 100 := by
  have h100 : (100 : ℚ) * ((k / 100 : Nat) : ℚ) + ((k % 100 : Nat) : ℚ) = (k : ℚ) := by
    exact_mod_cast congrArg (fun n : Nat => (n : ℚ)) (Nat.div_add_mod k 100)
  field_simp
  linarith [h100]

theorem parse_formatCents (k : Nat) :
    parseDecimal (formatCents k).data = some ((k : ℚ) / 100) := by
  have hd1 : k % 100 / 10 < 10 := by
    have : k % 100 < 100 := Nat.mod_lt _ (by omega)
    omega
  have hd2 : k % 100 % 10 < 10 := Nat.mod_lt _ (by omega)
  have hint := isDigit_of_mem_natDigitsCore (k / 100 + 1) (k / 100)
  have hne := natDigitsCore_ne_nil (k / 100 + 1) (k / 100) (by omega)
  have hnodot : ∀ c ∈ natDigitsCore (k / 100 + 1) (k / 100), c ≠ '.' :=
    fun c hc => isDigit_ne_dot (hint c hc)
  have hdata : (formatCents k).data =
      natDigitsCore (k / 100 + 1) (k / 100) ++
        ('.') :: [digitChar (k % 100 / 10), digitChar (k % 100 % 10)] := rfl
  rw [parseDecimal, if_pos]
  · congr 1
    rw [decValue, hdata, takeWhile_no_dot hnodot, dropWhile_no_dot hnodot]
    have hudrop : ((('.') :: [digitChar (k % 100 / 10), digitChar (k % 100 % 10)]).drop 1) =
        [digitChar (k % 100 / 10), digitChar (k % 100 % 10)] := rfl
    rw [hudrop, digitsToNat_natDigitsCore _ _ (by omega)]
    have hfrac : digitsToNat [digitChar (k % 100 / 10), digitChar (k % 100 % 10)] = k % 100 := by
      simp [digitsToNat, toNat_digitChar hd1, toNat_digitChar hd2]
      omega
    rw [hfrac]
    simpa using cents_value k
  · refine ⟨?_, ?_, ?_⟩
    · intro c hc
      rw [hdata] at hc
      simp at hc
      rcases hc with hc | hc | hc | hc
      · simp [keepNumChar, hint c hc]
      · simp [hc, keepNumChar]
      · simp [hc, keepNumChar, isDigit_digitChar hd1]
      · simp [hc, keepNumChar, isDigit_digitChar hd2]
    · rw [hdata, List.count_append]
      have hz : (natDigitsCore (k / 100 + 1) (k / 100)).count ('.') = 0 := by
        rw [List.count_eq_zero]
        intro hmem
        exact hnodot _ hmem rfl
      have hz2 : (('.') :: [digitChar (k % 100 / 10), digitChar (k % 100 % 10)]).count ('.') = 1 := by
        have e1 : digitChar (k % 100 / 10) ≠ '.' := isDigit_ne_dot (isDigit_digitChar hd1)
        have e2 : digitChar (k % 100 % 10) ≠ '.' := isDigit_ne_dot (isDigit_digitChar hd2)
        simp [List.count_cons, e1, e2]
      omega
    · rcases List.exists_mem_of_ne_nil _ hne with ⟨c, hc⟩
      refine ⟨c, ?_, hint c hc⟩
      rw [hdata]
      simp [hc]

theorem fmt2_cents (c : Nat) : fmt2 ((c : ℚ) / 100) = formatCents c := by
  rw [fmt2]
  have h : (100 : ℚ) * ((c : ℚ) / 100) = (c : ℚ) := by field_simp
  rw [h, round_natCast, Int.toNat_natCast]

theorem parse_fmt2_cents (c : Nat) :
    parseDecimal (fmt2 ((c : ℚ) / 100)).data = some ((c : ℚ) / 100) := by
  rw [fmt2_cents, parse_formatCents]

theorem parse_fmt2_isSome (p : ℚ) : (parseDecimal (fmt2 p).data).isSome = true := by
  rw [fmt2, parse_formatCents]
  rfl

/-! ### Evaluation helpers -/

theorem decValue_eq (cs : List Char) (i f l : Nat)
    (hi : digitsToNat (cs.takeWhile (fun c => c ≠ '.')) = i)
    (hf : digitsToNat ((cs.dropWhile (fun c => c ≠ '.')).drop 1) = f)
    (hl : ((cs.dropWhile (fun c => c ≠ '.')).drop 1).length = l) :
    decValue cs = (i : ℚ) + (f : ℚ) / 10 ^ l := by
  rw [decValue, hi, hf, hl]

theorem decValue_ten : decValue (("10.00").data) = 10 := by
  rw [decValue_eq (("10.00").data) 10 0 2 (by decide) (by decide) (by decide)]
  norm_num

theorem decValue_seven : decValue (("7.00").data) = 7 := by
  rw [decValue_eq (("7.00").data) 7 0 2 (by decide) (by decide) (by decide)]
  norm_num

theorem decValue_zero : decValue (("0").data) = 0 := by
  rw [decValue_eq (("0").data) 0 0 0 (by decide) (by decide) (by decide)]
  norm_num

theorem broadPrice_broadTree : broadPrice broadTree = some ⟨broadSpan, [broadDiv], 7⟩ := by
  have h : broadPrice broadTree =
      (if 0 < decValue (("7.00").data) then
        some ⟨broadSpan, [broadDiv], decValue (("7.00").data)⟩ else none) := rfl
  rw [h, decValue_seven, if_pos (by norm_num : (0 : ℚ) < 7)]

/-! ### Guard lemmas for the markup cascade -/

theorem selCascade_error_of_hit (pairs : List (ElemInfo × List ElemInfo))
    (sels : List Selector)
    (h : sels.any (fun sel => (pairs.find? (fun q => elemMatchesSel sel q.1)).isSome) = true) :
    selCascade pairs sels = Except.error () := by
  induction sels with
  | nil => simp at h
  | cons s rest ih =>
    cases hf : pairs.find? (fun q => elemMatchesSel s q.1) with
    | some pr => simp only [selCascade, hf]
    | none =>
      simp only [selCascade, hf]
      apply ih
      simpa [hf] using h

theorem broadScan_own_ok (pairs : List (ElemInfo × List ElemInfo)) (c : Chosen)
    (h : broadScan pairs = some c) :
    matchesCompareAt (joinClasses c.el.classes) = false ∧
      isSdel c.el.tag = false ∧ ∀ a ∈ c.anc, isSdel a.tag = false := by
  induction pairs with
  | nil => simp [broadScan] at h
  | cons pr rest ih =>
    rw [broadScan] at h
    split at h
    · split at h
      · exact ih h
      · rename_i hcmp
        split at h
        · exact ih h
        · rename_i hsd
          split at h
          · exact ih h
          · split at h
            · cases h
              have hcmp2 : matchesCompareAt (joinClasses pr.1.classes) = false := by
                cases hh : matchesCompareAt (joinClasses pr.1.classes) with
                | false => rfl
                | true => exact absurd hh hcmp
              have h1 : (pr.2.any fun a => isSdel a.tag) = false ∧ isSdel pr.1.tag = false := by
                constructor
                · cases hh : (pr.2.any fun a => isSdel a.tag) with
                  | false => rfl
                  | true => exact absurd (by simp [hh]) hsd
                · cases hh : isSdel pr.1.tag with
                  | false => rfl
                  | true => exact absurd (by simp [hh]) hsd
              refine ⟨hcmp2, h1.2, ?_⟩
              intro a ha
              have hmem : a ∈ pr.2 := ha
              have := List.any_eq_false.mp h1.1 a hmem
              simpa using this
            · exact ih h
    · exact ih h

/-! ### Claim C1 -/

/-- C1, as stated, is false on the code: in the broad fallback the
compare-at check is applied only to the candidate's own classes (plus an
`s`/`del` nesting check), not to ancestor classes.  Concretely, on a page
whose only price element is a `span.price` inside a `div.compare-at` (a
page on which no priority selector matches, so the cascade neither
raises nor selects), the broad fallback selects that span — an element
whose ancestor chain carries a compare-at class — and the extraction
returns its text's value. -/
theorem c1_counterexample :
    broadPrice cexTree = some ⟨cexSpan, [cexDiv], 10⟩ ∧
      matchesCompareAt (joinClasses cexDiv.classes) = true ∧
      scrape_product_price cexDoc ("https://example.com/p") = Except.ok (some 10) := by
  have hb : broadPrice cexTree =
      (if 0 < decValue (("10.00").data) then
        some ⟨cexSpan, [cexDiv], decValue (("10.00").data)⟩ else none) := rfl
  have hb10 : broadPrice cexTree = some ⟨cexSpan, [cexDiv], 10⟩ := by
    rw [hb, decValue_ten, if_pos (by norm_num : (0 : ℚ) < 10)]
  refine ⟨hb10, by decide, ?_⟩
  show Except.ok ((broadPrice cexTree).map Chosen.price) = Except.ok (some 10)
  rw [hb10]
  rfl

/-- C1 (amended): the prioritized selector cascade never selects any
element at all — as soon as any priority selector matches one, line
275's `[el] + el.parents` raises TypeError (`.parents` is a generator),
so the cascade raises and, when the structured stage missed, the
product's price extraction aborts with nothing extracted; in particular
no element with compare-at ancestry is ever selected there.  The broad
fallback, which runs only when no priority selector matched, never
selects a candidate whose own styling classes match the compare-at
vocabulary, nor one which is or is nested inside an `s`/`del` element —
but a compare-at class on an ancestor alone does not disqualify a
broad-fallback candidate. -/
theorem c1_compare_at_amended (t u : Node) (cb : Chosen)
    (scripts : List (Option (List Item))) (meta : Option String) (btns : List Button)
    (url : String)
    (hhit : priceSelectors.any
      (fun sel => ((nodePairs t).find? (fun q => elemMatchesSel sel q.1)).isSome) = true)
    (hstruct : structuredPrice scripts (extractVariantId url) = none)
    (hbr : broadPrice u = some cb) :
    selCascade (nodePairs t) priceSelectors = Except.error () ∧
      scrape_product_price
        { tree := t, scripts := scripts, metaAvailability := meta, buttons := btns } url =
        Except.error () ∧
      matchesCompareAt (joinClasses cb.el.classes) = false ∧
      isSdel cb.el.tag = false ∧ (∀ a ∈ cb.anc, isSdel a.tag = false) := by
  obtain ⟨h1, h2, h3⟩ := broadScan_own_ok (nodePairs u) cb hbr
  have herr := selCascade_error_of_hit (nodePairs t) priceSelectors hhit
  refine ⟨herr, ?_, h1, h2, h3⟩
  simp only [scrape_product_price, hstruct, herr]

/-- Witness for C1 (amended): a page whose `span.sale-price` is hit by
the first priority selector (the cascade raises and extraction errors),
and a broad-fallback page with its selected element's guarantees. -/
theorem c1_witness :
    selCascade (nodePairs selTree) priceSelectors = Except.error () ∧
      scrape_product_price
        { tree := selTree, scripts := [], metaAvailability := none, buttons := [] }
        ("https://example.com/p") = Except.error () ∧
      matchesCompareAt (joinClasses (⟨broadSpan, [broadDiv], 7⟩ : Chosen).el.classes) = false ∧
      isSdel (⟨broadSpan, [broadDiv], 7⟩ : Chosen).el.tag = false ∧
      (∀ a ∈ (⟨broadSpan, [broadDiv], 7⟩ : Chosen).anc, isSdel a.tag = false) :=
  c1_compare_at_amended selTree broadTree ⟨broadSpan, [broadDiv], 7⟩ [] none []
    ("https://example.com/p") (by decide) rfl broadPrice_broadTree

/-! ### Claim C2 -/

/-- C2: with a variant identifier in the source URL, if exactly one
offer's URL contains it, the candidate set is exactly that offer — any
offer earlier in document order is cut away — so whatever price is
picked comes from it; if no offer's URL contains it, the unfiltered
offer list is the candidate set, so extraction never fails solely
because variant matching was unavailable. -/
theorem c2_variant_filtering (offers offers2 : List Offer) (url url2 : String)
    (vid vid2 : String) (o : Offer)
    (hv : extractVariantId url = some vid)
    (hv2 : extractVariantId url2 = some vid2)
    (h1 : offers.filter (offerMatchesVariant vid) = [o])
    (h2 : offers2.filter (offerMatchesVariant vid2) = []) :
    candidate_offers (extractVariantId url) offers = [o] ∧
      pickOfferPrice (candidate_offers (extractVariantId url) offers) = pickOfferPrice [o] ∧
      candidate_offers (extractVariantId url2) offers2 = offers2 := by
  rw [hv, hv2]
  refine ⟨?_, ?_, ?_⟩
  · simp [candidate_offers, h1]
  · simp [candidate_offers, h1]
  · simp [candidate_offers, h2]

/-- Witness for C2: the matching offer appears second; it alone becomes
the candidate set, and an unmatched variant id falls back to all
offers. -/
theorem c2_witness :
    candidate_offers (extractVariantId ("https://s.com/p?variant=77")) [wOfferA, wOfferB] =
        [wOfferB] ∧
      pickOfferPrice (candidate_offers (extractVariantId ("https://s.com/p?variant=77"))
          [wOfferA, wOfferB]) = pickOfferPrice [wOfferB] ∧
      candidate_offers (extractVariantId ("https://x.com/p?variant=99")) [wOfferA] = [wOfferA] :=
  c2_variant_filtering [wOfferA, wOfferB] [wOfferA] ("https://s.com/p?variant=77")
    ("https://x.com/p?variant=99") ("77") ("99") wOfferB (by decide) (by decide)
    (by decide) (by decide)

/-! ### Claim C3 -/

/-- C3, as stated, is false on the code: availability values are read in
offer order and the out-of-stock vocabulary is checked first, so a
document that does expose an in-stock availability for a candidate offer
is still reported out of stock when an earlier candidate offer carries an
out-of-stock value. -/
theorem c3_counterexample :
    is_out_of_stock cexDoc3 ("https://example.com/p") = true ∧
      ((candidate_offers (extractVariantId ("https://example.com/p"))
          (collectOffers cexItem3)).any
        (fun o => strContains o.availability ("InStock"))) = true := by
  decide

/-- C3 (amended): when the structured-offer stage is decisive with
"in stock" — the first candidate offer (in script, item, offer order)
whose availability contains an out-of-stock or in-stock term contains an
in-stock one — the result is in stock, whatever the availability meta
tag and the page's buttons say: those later signals are never consulted
and cannot flip the result. -/
theorem c3_instock_short_circuit (tree : Node) (scripts : List (Option (List Item)))
    (url : String) (h : structuredStock scripts (extractVariantId url) = some false) :
    ∀ (meta : Option String) (btns : List Button),
      is_out_of_stock
        { tree := tree, scripts := scripts, metaAvailability := meta, buttons := btns } url =
        false := by
  intro meta btns
  simp [is_out_of_stock, h]

/-- Witness for C3 (amended): a decisive in-stock offer wins even against
an explicit out-of-stock meta tag and a disabled "Add to Cart" button. -/
theorem c3_witness :
    is_out_of_stock
      { tree := Node.text (""), scripts := [some [inItem3]],
        metaAvailability := some ("out of stock"),
        buttons := [{ disabled := true, text := "Add to Cart" }] }
      ("https://example.com/p") = false :=
  c3_instock_short_circuit (Node.text ("")) [some [inItem3]] ("https://example.com/p")
    (by decide) (some ("out of stock")) [{ disabled := true, text := "Add to Cart" }]

/-! ### Alert-map lemmas -/

theorem lookup_mark_alerted (m : List (String × String)) (name d : String) :
    List.lookup name (mark_alerted m name d) = some d := by
  simp [mark_alerted, List.lookup]

theorem dropDecision_emit (m : List (String × String)) (name d : String)
    (h : List.lookup name m ≠ some d) :
    dropDecision m name d = (true, mark_alerted m name d) := by
  have hb : (List.lookup name m == some d) = false := beq_eq_false_iff_ne.mpr h
  simp [dropDecision, already_alerted_today, hb]

theorem dropDecision_suppress (m : List (String × String)) (name d : String)
    (h : List.lookup name m = some d) :
    dropDecision m name d = (false, m) := by
  simp [dropDecision, already_alerted_today, h]

theorem sameDayRuns_fixed (name d : String) (n : Nat) (m : List (String × String))
    (h : List.lookup name m = some d) :
    sameDayRuns name d n m = m := by
  induction n with
  | zero => rfl
  | succ n ih =>
    rw [sameDayRuns, dropDecision_suppress m name d h]
    exact ih

/-! ### Claim C4 -/

/-- C4: starting from a state not yet alerted today, the drop branch
alerts and marks on the first invocation; every further invocation on
the same calendar day — however many — is suppressed; and on a different
(e.g. next) day it alerts again. -/
theorem c4_once_per_day (alerted : List (String × String)) (name d d2 : String)
    (h : List.lookup name alerted ≠ some d) (hd : d2 ≠ d) :
    (dropDecision alerted name d).1 = true ∧
      (∀ n, (dropDecision (sameDayRuns name d n (dropDecision alerted name d).2) name d).1 =
        false) ∧
      (∀ n, (dropDecision (sameDayRuns name d n (dropDecision alerted name d).2) name d2).1 =
        true) := by
  have hfirst := dropDecision_emit alerted name d h
  have hmark : List.lookup name (dropDecision alerted name d).2 = some d := by
    rw [hfirst]
    exact lookup_mark_alerted alerted name d
  refine ⟨by rw [hfirst], ?_, ?_⟩
  · intro n
    rw [sameDayRuns_fixed name d n _ hmark, dropDecision_suppress _ name d hmark]
  · intro n
    rw [sameDayRuns_fixed name d n _ hmark]
    have hne : List.lookup name (dropDecision alerted name d).2 ≠ some d2 := by
      rw [hmark]
      intro hcon
      exact hd (Option.some.inj hcon).symm
    rw [dropDecision_emit _ name d2 hne]

/-- Witness for C4 on a fresh map and consecutive dates. -/
theorem c4_witness :
    (dropDecision [] ("Laptop - Amazon") ("2026-10-12")).1 = true ∧
      (∀ n, (dropDecision
          (sameDayRuns ("Laptop - Amazon") ("2026-10-12") n
            (dropDecision [] ("Laptop - Amazon") ("2026-10-12")).2)
          ("Laptop - Amazon") ("2026-10-12")).1 = false) ∧
      (∀ n, (dropDecision
          (sameDayRuns ("Laptop - Amazon") ("2026-10-12") n
            (dropDecision [] ("Laptop - Amazon") ("2026-10-12")).2)
          ("Laptop - Amazon") ("2026-10-13")).1 = true) :=
  c4_once_per_day [] ("Laptop - Amazon") ("2026-10-12") ("2026-10-13")
    (by decide) (by decide)

/-! ### Claim C5 -/

/-- C5: cleanup strips every character that is not a digit or a decimal
point (commas and currency symbols included) and parses the rest: a
nonempty input whose surviving characters form a well-formed numeral
yields exactly that numeral's value; the empty input and inputs whose
surviving characters are not a well-formed numeral yield `none` (no
exception); and in the structured-offer cascade an offer whose cleaned
price is `≤ 0` is passed over in favour of the remaining offers. -/
theorem c5_clean_price (r1 r2 : String) (o : Offer) (rest : List Offer) (raw : String) (p : ℚ)
    (h1 : r1 ≠ "")
    (h2 : (filterNumChars r1).count ('.') ≤ 1 ∧ ∃ c ∈ filterNumChars r1, c.isDigit = true)
    (h3 : ¬ ((filterNumChars r2).count ('.') ≤ 1 ∧ ∃ c ∈ filterNumChars r2, c.isDigit = true))
    (h4 : offerPriceRaw o = some raw) (h5 : clean_price raw = some p) (h6 : p ≤ 0) :
    clean_price r1 = some (decValue (filterNumChars r1)) ∧
      clean_price ("") = none ∧
      clean_price r2 = none ∧
      pickOfferPrice (o :: rest) = pickOfferPrice rest := by
  refine ⟨?_, rfl, ?_, ?_⟩
  · have hkeep : ∀ c ∈ filterNumChars r1, keepNumChar c = true := by
      intro c hc
      exact (List.mem_filter.mp hc).2
    rw [clean_price, if_neg h1, parseDecimal, if_pos ⟨hkeep, h2.1, h2.2⟩]
  · rw [clean_price]
    by_cases hr2 : r2 = ""
    · rw [if_pos hr2]
    · rw [if_neg hr2, parseDecimal, if_neg]
      intro hcon
      exact h3 ⟨hcon.2.1, hcon.2.2⟩
  · simp only [pickOfferPrice, h4, h5]
    rw [if_neg (not_lt.mpr h6)]

/-! ### History-store lemmas -/

theorem read_last_price_concat (log : List Row) (r : Row) (label retailer : String) (v : ℚ)
    (hname : r.name = productKey label retailer)
    (hparse : parseDecimal r.price.data = some v) :
    read_last_price (log ++ [r]) label retailer = Except.ok (some v) := by
  have hfl : ((log ++ [r]).filter (fun x => x.name = productKey label retailer)) =
      log.filter (fun x => x.name = productKey label retailer) ++ [r] := by
    rw [List.filter_append]
    simp [List.filter, hname]
  simp only [read_last_price, hfl, List.getLast?_concat, hparse]

theorem read_last_price_none (log : List Row) (label retailer : String)
    (h : ∀ r ∈ log, r.name ≠ productKey label retailer) :
    read_last_price log label retailer = Except.ok none := by
  have hfl : log.filter (fun x => x.name = productKey label retailer) = [] :=
    List.filter_eq_nil_iff.mpr (by intro a ha; simpa using h a ha)
  simp only [read_last_price, hfl, List.getLast?_nil]

theorem read_7days_concat (log : List Row) (r : Row) (label retailer : String)
    (now : Int) (v : ℚ)
    (hname : r.name = productKey label retailer)
    (hts : r.timestamp ≤ now - 7 * 86400)
    (hparse : parseDecimal r.price.data = some v) :
    read_price_7days_ago (log ++ [r]) label retailer now = Except.ok (some v) := by
  have h1 : ((log ++ [r]).filter (fun x => x.name = productKey label retailer)) =
      log.filter (fun x => x.name = productKey label retailer) ++ [r] := by
    rw [List.filter_append]
    simp [List.filter, hname]
  have hone : ([r].filter (fun x => x.timestamp ≤ now - 7 * 86400)) = [r] := by
    simp only [List.filter, decide_eq_true hts]
  have h2 : ((log.filter (fun x => x.name = productKey label retailer) ++ [r]).filter
      (fun x => x.timestamp ≤ now - 7 * 86400)) =
      (log.filter (fun x => x.name = productKey label retailer)).filter
        (fun x => x.timestamp ≤ now - 7 * 86400) ++ [r] := by
    rw [List.filter_append, hone]
  simp only [read_price_7days_ago, h1, h2, List.getLast?_concat, hparse]

theorem read_7days_none_name (log : List Row) (label retailer : String) (now : Int)
    (h : ∀ r ∈ log, r.name ≠ productKey label retailer) :
    read_price_7days_ago log label retailer now = Except.ok none := by
  have hfl : log.filter (fun x => x.name = productKey label retailer) = [] :=
    List.filter_eq_nil_iff.mpr (by intro a ha; simpa using h a ha)
  simp only [read_price_7days_ago, hfl, List.filter_nil, List.getLast?_nil]

theorem read_7days_none_time (log : List Row) (label retailer : String) (now : Int)
    (h : ∀ r ∈ log, ¬ (r.timestamp ≤ now - 7 * 86400)) :
    read_price_7days_ago log label retailer now = Except.ok none := by
  have hfl : ((log.filter (fun x => x.name = productKey label retailer)).filter
      (fun x => x.timestamp ≤ now - 7 * 86400)) = [] := by
    refine List.filter_eq_nil_iff.mpr ?_
    intro a ha
    simpa using h a (List.mem_filter.mp ha).1
  simp only [read_price_7days_ago, hfl, List.getLast?_nil]

/-! ### Claim C6 -/

/-- C6: appending a reading makes "last price" return exactly that
reading's (formatted, re-parsed) price; a reading timestamped exactly at
the 7-day cutoff is still returned by the "price 7 days ago" query
(inclusive boundary); and each query returns absent when no matching row
(or, for the 7-day query, no row at or before the cutoff) exists.
Prices are quantified over whole cents, the resolution at which the
logger's `:.2f` formatting is lossless. -/
theorem c6_history_roundtrip (log log2 log3 log4 : List Row)
    (label retailer url : String) (imgO : Option String) (oos : Bool) (c : Nat)
    (now now2 : Int)
    (h3 : ∀ r ∈ log3, r.name ≠ productKey label retailer)
    (h4 : ∀ r ∈ log4, ¬ (r.timestamp ≤ now2 - 7 * 86400)) :
    read_last_price (log_price log label retailer url ((c : ℚ) / 100) imgO oos now)
        label retailer = Except.ok (some ((c : ℚ) / 100)) ∧
      read_price_7days_ago
        (log_price log2 label retailer url ((c : ℚ) / 100) imgO oos (now2 - 7 * 86400))
        label retailer now2 = Except.ok (some ((c : ℚ) / 100)) ∧
      read_last_price log3 label retailer = Except.ok none ∧
      read_price_7days_ago log3 label retailer now2 = Except.ok none ∧
      read_price_7days_ago log4 label retailer now2 = Except.ok none := by
  refine ⟨?_, ?_, read_last_price_none log3 label retailer h3,
    read_7days_none_name log3 label retailer now2 h3,
    read_7days_none_time log4 label retailer now2 h4⟩
  · exact read_last_price_concat log _ label retailer _ rfl (parse_fmt2_cents c)
  · exact read_7days_concat log2 _ label retailer now2 _ rfl (by simp) (parse_fmt2_cents c)

/-- Witness for C6 at a concrete 399.00-cent reading and empty logs. -/
theorem c6_witness :
    read_last_price (log_price [] ("A") ("S") ("u") ((39900 : ℚ) / 100) none false 0)
        ("A") ("S") = Except.ok (some ((39900 : ℚ) / 100)) ∧
      read_price_7days_ago
        (log_price [] ("A") ("S") ("u") ((39900 : ℚ) / 100) none false (1000000 - 7 * 86400))
        ("A") ("S") 1000000 = Except.ok (some ((39900 : ℚ) / 100)) ∧
      read_last_price [] ("A") ("S") = Except.ok none ∧
      read_price_7days_ago [] ("A") ("S") 1000000 = Except.ok none ∧
      read_price_7days_ago [] ("A") ("S") 1000000 = Except.ok none :=
  c6_history_roundtrip [] [] [] [] ("A") ("S") ("u") none false 39900 0 1000000
    (by simp) (by simp)

/-! ### Claim C7 -/

/-- C7: a tracked product appears in the staleness list iff it has no
logged rows at all or its most recent (last) matching row is older than
24 hours; in particular a product logged within the last 24 hours does
not appear.  The notice is a single aggregate: it is sent exactly when
the list is nonempty and carries the whole list. -/
theorem c7_staleness (log : List Row) (tracked : List String) (now : Int) (name : String)
    (hmem : name ∈ tracked) :
    ((∃ a, (name, a) ∈ staleList log tracked now) ↔
      ((log.filter (fun r => r.name = name)) = [] ∨
        ∃ r, (log.filter (fun r => r.name = name)).getLast? = some r ∧
          r.timestamp < now - 24 * 3600)) ∧
      ((staleList log tracked now).isEmpty = false →
        stalenessNotice log tracked now = some (staleList log tracked now)) ∧
      ((staleList log tracked now).isEmpty = true →
        stalenessNotice log tracked now = none) := by
  refine ⟨⟨?_, ?_⟩, ?_, ?_⟩
  · rintro ⟨a, ha⟩
    obtain ⟨n, hn, hmap⟩ := List.mem_filterMap.mp ha
    obtain ⟨e, hentry, hpair⟩ := Option.map_eq_some'.mp hmap
    have h5 : n = name := congrArg Prod.fst hpair
    have h6 : e = a := congrArg Prod.snd hpair
    subst h6
    rw [h5] at hentry
    rw [staleEntry] at hentry
    cases hlast : (log.filter (fun r => r.name = name)).getLast? with
    | none =>
      exact Or.inl (List.getLast?_eq_none_iff.mp hlast)
    | some r =>
      rw [hlast] at hentry
      have hentry2 : (if r.timestamp < now - 24 * 3600 then
          some ("(last seen " ++ natToString ((now - r.timestamp).toNat / 3600) ++ "h ago)")
        else none) = some e := hentry
      by_cases hts : r.timestamp < now - 24 * 3600
      · exact Or.inr ⟨r, rfl, hts⟩
      · rw [if_neg hts] at hentry2
        cases hentry2
  · rintro (hnil | ⟨r, hlast, hts⟩)
    · refine ⟨"(no data yet)", List.mem_filterMap.mpr ⟨name, hmem, ?_⟩⟩
      simp [staleEntry, hnil]
    · refine ⟨"(last seen " ++ natToString ((now - r.timestamp).toNat / 3600) ++ "h ago)",
        List.mem_filterMap.mpr ⟨name, hmem, ?_⟩⟩
      simp only [staleEntry, hlast]
      rw [if_pos hts]
      rfl
  · intro h
    rw [stalenessNotice, if_neg]
    simp [h]
  · intro h
    rw [stalenessNotice, if_pos h]

/-- Witness for C7: one product logged exactly one hour ago (not stale),
with its membership characterisation and the empty aggregate notice. -/
theorem c7_witness :
    ((∃ a, (("A - S"), a) ∈
        staleList [{ timestamp := 96400, name := "A - S", price := "9.99" }] ["A - S"] 100000) ↔
      ((([{ timestamp := 96400, name := "A - S", price := "9.99" }] : List Row).filter
          (fun r => r.name = "A - S")) = [] ∨
        ∃ r, (([{ timestamp := 96400, name := "A - S", price := "9.99" }] : List Row).filter
            (fun r => r.name = "A - S")).getLast? = some r ∧
          r.timestamp < 100000 - 24 * 3600)) ∧
      ((staleList [{ timestamp := 96400, name := "A - S", price := "9.99" }]
          ["A - S"] 100000).isEmpty = false →
        stalenessNotice [{ timestamp := 96400, name := "A - S", price := "9.99" }]
          ["A - S"] 100000 =
          some (staleList [{ timestamp := 96400, name := "A - S", price := "9.99" }]
            ["A - S"] 100000)) ∧
      ((staleList [{ timestamp := 96400, name := "A - S", price := "9.99" }]
          ["A - S"] 100000).isEmpty = true →
        stalenessNotice [{ timestamp := 96400, name := "A - S", price := "9.99" }]
          ["A - S"] 100000 = none) :=
  c7_staleness [{ timestamp := 96400, name := "A - S", price := "9.99" }] ["A - S"] 100000
    ("A - S") (by decide)

/-! ### Claim C8 -/

/-- C8: a priced reading on an out-of-stock item is still appended to
the history log, with no alert payload and no suppression-map change,
whatever the price movement; a reading with no extracted price changes
nothing at all. -/
theorem c8_oos_logged_not_alerted (s : RunState) (now : Int)
    (today label retailer url : String) (res1 res2 : ScrapeResult) (p : ℚ)
    (oldp : Option ℚ)
    (h1 : res1.price = some p) (h2 : res1.oos = true)
    (h3 : read_last_price s.log label retailer = Except.ok oldp)
    (h4 : res2.price = none) :
    (runStep s now today label retailer url res1).log =
        s.log ++ [{ timestamp := now, name := productKey label retailer, price := fmt2 p,
                    url := url, image := res1.image.getD "", oos := "1" }] ∧
      (runStep s now today label retailer url res1).alerts = s.alerts ∧
      (runStep s now today label retailer url res1).alerted = s.alerted ∧
      runStep s now today label retailer url res2 = s := by
  have hstep : runStep s now today label retailer url res1 =
      { s with log := log_price s.log label retailer url p res1.image true now } := by
    simp only [runStep, h1, h3, h2, if_true]
  rw [hstep]
  refine ⟨?_, rfl, rfl, ?_⟩
  · simp [log_price]
  · simp only [runStep, h4]

/-- Witness for C8 from the empty run state. -/
theorem c8_witness :
    (runStep ⟨[], [], []⟩ 0 ("2026-10-12") ("A") ("S") ("u")
        { price := some 1, oos := true }).log =
        [] ++ [{ timestamp := 0, name := productKey ("A") ("S"), price := fmt2 1,
                 url := "u", image := (none : Option String).getD "", oos := "1" }] ∧
      (runStep ⟨[], [], []⟩ 0 ("2026-10-12") ("A") ("S") ("u")
        { price := some 1, oos := true }).alerts = [] ∧
      (runStep ⟨[], [], []⟩ 0 ("2026-10-12") ("A") ("S") ("u")
        { price := some 1, oos := true }).alerted = [] ∧
      runStep ⟨[], [], []⟩ 0 ("2026-10-12") ("A") ("S") ("u") {} = ⟨[], [], []⟩ :=
  c8_oos_logged_not_alerted ⟨[], [], []⟩ 0 ("2026-10-12") ("A") ("S") ("u")
    { price := some 1, oos := true } {} 1 none rfl rfl rfl rfl

/-! ### Claim C9 -/

/-- C9: the suppression entry is written into the alerted map at
drop-decision time; the map handed to `save_alerted` at run end does not
depend on whether the alert email later raised (its failure is caught
inside `send_email`); the persisted map still carries today's mark for
the product (pruning keeps any date at or above the cutoff); and a
subsequent same-day drop decision against the persisted map is
suppressed. -/
theorem c9_alert_mark_persists (alerted : List (String × String)) (name d cutoff : String)
    (h : List.lookup name alerted ≠ some d) (hc : strLe cutoff d = true) :
    (dropDecision alerted name d).1 = true ∧
      (∀ fails : Bool,
        (runFinish (dropDecision alerted name d).2 cutoff fails).1 =
          save_alerted (dropDecision alerted name d).2 cutoff) ∧
      List.lookup name (save_alerted (dropDecision alerted name d).2 cutoff) = some d ∧
      (dropDecision (save_alerted (dropDecision alerted name d).2 cutoff) name d).1 =
        false := by
  have hfirst := dropDecision_emit alerted name d h
  have hsaved : List.lookup name (save_alerted (dropDecision alerted name d).2 cutoff) =
      some d := by
    rw [hfirst]
    show List.lookup name (save_alerted (mark_alerted alerted name d) cutoff) = some d
    rw [mark_alerted, save_alerted]
    simp [List.filter, hc, List.lookup]
  refine ⟨by rw [hfirst], fun fails => rfl, hsaved, ?_⟩
  rw [dropDecision_suppress _ name d hsaved]

/-- Witness for C9 on a fresh map, today's date above the prune cutoff. -/
theorem c9_witness :
    (dropDecision [] ("Laptop - Amazon") ("2026-10-12")).1 = true ∧
      (∀ fails : Bool,
        (runFinish (dropDecision [] ("Laptop - Amazon") ("2026-10-12")).2
            ("2026-10-10") fails).1 =
          save_alerted (dropDecision [] ("Laptop - Amazon") ("2026-10-12")).2 ("2026-10-10")) ∧
      List.lookup ("Laptop - Amazon")
        (save_alerted (dropDecision [] ("Laptop - Amazon") ("2026-10-12")).2 ("2026-10-10")) =
        some ("2026-10-12") ∧
      (dropDecision
        (save_alerted (dropDecision [] ("Laptop - Amazon") ("2026-10-12")).2 ("2026-10-10"))
        ("Laptop - Amazon") ("2026-10-12")).1 = false :=
  c9_alert_mark_persists [] ("Laptop - Amazon") ("2026-10-12") ("2026-10-10")
    (by decide) (by decide)

/-! ### Claim C10 -/

theorem mem_of_getLast_some {α : Type} (l : List α) (a : α) (h : l.getLast? = some a) :
    a ∈ l := by
  induction l using List.reverseRecOn with
  | nil => simp at h
  | append_singleton l b ih =>
    rw [List.getLast?_concat] at h
    obtain rfl := Option.some.inj h
    simp

/-- C10: "last price" returns absent when no row matches; a row written
by the logger always carries a parseable price string, so the
parse-failure path cannot fire on logger-written logs (totality under
the all-numeric precondition); but a migrated row whose source schema
lacked the price column carries `""`, on which the parse raises. -/
theorem c10_read_last_price_totality (log1 log2 log3 : List Row) (label retailer : String)
    (q : ℚ) (old : OldRow)
    (h1 : ∀ r ∈ log1, r.name ≠ productKey label retailer)
    (h2 : ∀ r ∈ log3, (parseDecimal r.price.data).isSome = true)
    (h3 : old.price = none) (h4 : old.name = productKey label retailer) :
    read_last_price log1 label retailer = Except.ok none ∧
      (parseDecimal (fmt2 q).data).isSome = true ∧
      read_last_price log3 label retailer ≠ Except.error () ∧
      read_last_price (log2 ++ [migrateRow old]) label retailer = Except.error () := by
  refine ⟨read_last_price_none log1 label retailer h1, parse_fmt2_isSome q, ?_, ?_⟩
  · cases hlast : (log3.filter (fun r => r.name = productKey label retailer)).getLast? with
    | none => simp [read_last_price, hlast]
    | some r =>
      have hr3 : r ∈ log3 := (List.mem_filter.mp (mem_of_getLast_some _ _ hlast)).1
      have hps := h2 r hr3
      cases hp : parseDecimal r.price.data with
      | none => rw [hp] at hps; simp at hps
      | some v => simp [read_last_price, hlast, hp]
  · have hmname : (migrateRow old).name = productKey label retailer := h4
    have hfl : ((log2 ++ [migrateRow old]).filter
        (fun r => r.name = productKey label retailer)) =
        log2.filter (fun r => r.name = productKey label retailer) ++ [migrateRow old] := by
      rw [List.filter_append]
      simp [List.filter, hmname]
    have hprice : (migrateRow old).price = "" := by
      simp [migrateRow, h3]
    have hparse : parseDecimal ((migrateRow old).price).data = none := by
      rw [hprice]
      rfl
    simp only [read_last_price, hfl, List.getLast?_concat, hparse]

/-- Witness for C10 with empty logs, a unit price, and an old row whose
price column is missing. -/
theorem c10_witness :
    read_last_price [] ("A") ("S") = Except.ok none ∧
      (parseDecimal (fmt2 1).data).isSome = true ∧
      read_last_price [] ("A") ("S") ≠ Except.error () ∧
      read_last_price ([] ++ [migrateRow { timestamp := 0, name := "A - S" }]) ("A") ("S") =
        Except.error () :=
  c10_read_last_price_totality [] [] [] ("A") ("S") 1 { timestamp := 0, name := "A - S" }
    (by simp) (by simp) rfl (by decide)

/-- Witness for C5: a currency-and-thousands-separator string parses, a
non-numeric string and the empty string give `none`, and a zero-priced
offer is passed over. -/
theorem c5_witness :
    clean_price ("$1,234.56") = some (decValue (filterNumChars ("$1,234.56"))) ∧
      clean_price ("") = none ∧
      clean_price ("N/A") = none ∧
      pickOfferPrice (({ price := "0" } : Offer) :: [({ price := "15.00" } : Offer)]) =
        pickOfferPrice [({ price := "15.00" } : Offer)] :=
  c5_clean_price ("$1,234.56") ("N/A") ({ price := "0" } : Offer)
    [({ price := "15.00" } : Offer)] ("0") (decValue (("0").data))
    (by decide) (by decide) (by decide) (by decide) rfl (le_of_eq decValue_zero)
